import Mathlib

/-!
Verification model of the GRASS wxGUI 3D map-display canvas
(`gui/wxpython/gui_modules/nviz_mapdisp.py`, class `GLWindow`).

The module is an orchestration layer between a layer tree and a native 3D
display engine.  The engine is external: every interaction with it is
modelled as an `EngCall` value recorded in an output list, and every value
the engine returns (load ids, unload status codes) is passed in as an
explicit argument.  Python dictionaries with optional `'update'` / `'object'`
keys are modelled as records with `Bool` flags and `Option` fields; Python
values that can be a string or a number are modelled by `PyV`.
-/

namespace GrassNviz

/-- A Python value that is either a string or a number (surface attribute
values can be either, and `UpdateSurfaceProperties` tests
`type(value) == type('')`). -/
inductive PyV
| str (s : String)
| num (n : Int)
deriving DecidableEq, Repr

/-- Python `str(value)` for the values above. -/
def pyToString : PyV → String
| .str s => s
| .num n => toString n

/-- The test `type(value) == type('') and len(value) <= 0` at
nviz_mapdisp.py:1030-1031. -/
def isEmptyStr : PyV → Bool
| .str s => s.length == 0
| .num _ => false

/-- Python 2 value returned by `GetLayerId`: either an int, or (through the
`return self.constants` line at nviz_mapdisp.py:1271) the constants list
itself. -/
inductive PyVal
| int (i : Int)
| pylist
deriving DecidableEq, Repr

/-- The Python 2 comparison `sid > -1`.  In CPython 2 a number compares
smaller than any non-numeric object, so `list > int` is `True`. -/
def pyGtNegOne : PyVal → Bool
| .int i => decide (i > -1)
| .pylist => true

/-- Calls made on the external display engine (`self._display`). -/
inductive EngCall
| setSurfaceColor (id : Int) (map : Bool) (value : String)
| unsetSurfaceMask (id : Int)
| setSurfaceMask (id : Int) (invert : Bool) (value : String)
| unsetSurfaceTransp (id : Int)
| setSurfaceTransp (id : Int) (map : Bool) (value : String)
| setSurfaceShine (id : Int) (map : Bool) (value : String)
| setSurfaceRes (id fine coarse : Int)
| setSurfaceStyle (id style : Int)
| setWireColor (id : Int) (color : String)
| setSurfacePosition (id x y z : Int)
| unloadSurface (id : Int)
| unloadVolume (id : Int)
| unloadVector (id : Int) (points : Bool)
| loadSurface (name : String)
| loadVolume (name : String)
| loadVector (points : Bool)
| setCPlaneRotation (a tilt rot : Int)
| setCPlaneTranslation (x y z : Int)
| setFenceColor (color : Int)
| setVectorLineSurface (id : Int) (sid : PyVal)
| unsetVectorLineSurface (id : Int) (sid : PyVal)
| setVectorPointSurface (id : Int) (sid : PyVal)
| unsetVectorPointSurface (id : Int) (sid : PyVal)
deriving DecidableEq, Repr

/-- A log line written through `self.log` (`WriteError` vs `WriteLog`). -/
inductive LogMsg
| err
| ok
deriving DecidableEq, Repr

/-- The `{'id': id, 'init': False}` record stored under the `'object'` key. -/
structure ObjRec where
  id : Int
  init : Bool
deriving DecidableEq, Repr

/-- Raster vs 3d-raster, the two layer types `_loadRaster` / `_unloadRaster`
handle. -/
inductive RKind
| raster
| raster3d
deriving DecidableEq, Repr

/-! ## C7: mouse-wheel perspective handling (`OnMouseAction`, lines 230-261) -/

/-- Actions taken by the wheel branch of `OnMouseAction`: the
`UpdateSettings` call on the tools window, the engine `SetView`, and the
`DoPaint` redraw. -/
inductive ViewAct
| updateSettings
| setView (x y height persp twist : Int)
| redraw
deriving DecidableEq, Repr

/-- The wheel branch of `OnMouseAction` (nviz_mapdisp.py:232-258).
Returns the new `view['persp']['value']` and the actions performed.
`hasToolWin` models `hasattr(self.lmgr, "nviz")`. -/
def onWheelPersp (hasToolWin : Bool) (wheel step prev x y height twist : Int) :
    Int × List ViewAct :=
  if wheel = 0 then (prev, [])
  else
    let value := if wheel > 0 then (-1) * step else step
    let v1 := prev + value
    let v2 := if v1 < 1 then 1 else if v1 > 100 then 100 else v1
    (v2,
     if prev ≠ v2 then
       (if hasToolWin then [ViewAct.updateSettings, ViewAct.setView x y height v2 twist]
        else []) ++ [ViewAct.redraw]
     else [])

/-! ## C10 / C2: raster load and unload (`_loadRaster` 666-714,
`_unloadRaster` 779-819) -/

/-- The engine load call issued by `_loadRaster`. -/
def loadCallFor : RKind → String → EngCall
| .raster, n => .loadSurface n
| .raster3d, n => .loadVolume n

/-- The engine unload call issued by `_unloadRaster`. -/
def unloadCallFor : RKind → Int → EngCall
| .raster, i => .unloadSurface i
| .raster3d, i => .unloadVolume i

/-- `_loadRaster` (nviz_mapdisp.py:666-700): issues the engine load, whose
returned id is `engineId`; logs an error when `engineId < 0`;
unconditionally appends the item to `self.layers`; `SetMapObjProperties`
stores an `'object'` record only when `engineId > 0` (line 639).
Result: (engine calls, log, `'object'` record, new `self.layers`). -/
def loadRaster (kind : RKind) (name : String) (engineId : Int)
    (layers : List Nat) (item : Nat) :
    List EngCall × List LogMsg × Option ObjRec × List Nat :=
  ([loadCallFor kind name],
   if engineId < 0 then [.err] else [],
   if engineId > 0 then some ⟨engineId, false⟩ else none,
   layers ++ [item])

/-- The skip test of `LoadDataLayers` (line 479): an item already present in
`self.layers` is never loaded again. -/
def alreadyLoaded (layers : List Nat) (item : Nat) : Bool :=
  layers.contains item

/-- `_unloadRaster` (nviz_mapdisp.py:779-811).  `ret` is the engine's unload
return value; `obj` is `data[nvizType]` (`none` models a missing `'object'`
key, on which Python would raise, hence `Option` result; likewise
`layers.remove` raises when the item is absent).
Result: (engine calls, log, `'object'` record after `pop`, new layers). -/
def unloadRaster (kind : RKind) (ret : Int) (obj : Option ObjRec)
    (layers : List Nat) (item : Nat) :
    Option (List EngCall × List LogMsg × Option ObjRec × List Nat) :=
  match obj with
  | none => none
  | some o =>
    if item ∈ layers then
      some ([unloadCallFor kind o.id],
            [if ret == 0 then .err else .ok],
            none,
            layers.erase item)
    else none

/-! ## C2 / C6: vector load and unload (`LoadVector` 821-871,
`UnloadVector` 873-915) -/

/-- The per-layer registry record for a vector: the `'object'` slots of
`data['vector']['points']` and `data['vector']['lines']`. -/
structure VectorData where
  pointsObj : Option ObjRec
  linesObj : Option ObjRec
deriving DecidableEq, Repr

/-- The `('points', 'lines')` sub-object kinds. -/
inductive VecType
| points
| lines
deriving DecidableEq, Repr

/-- The boolean passed to the engine `LoadVector`/`UnloadVector` for each
sub-object kind. -/
def isPointsB : VecType → Bool
| .points => true
| .lines => false

/-- One iteration of the `for vecType in vecTypes` loop in `LoadVector`
(lines 845-854): issue the engine load (`eng` gives its returned id), log an
error when the id is negative, and store an `'object'` record when the id is
positive (`SetMapObjProperties`, line 639). -/
def loadVecType (eng : Bool → Int) (vt : VecType) (d : VectorData) :
    VectorData × List EngCall × List LogMsg :=
  let idv := eng (isPointsB vt)
  (if idv > 0 then
     (match vt with
      | .points => { d with pointsObj := some ⟨idv, false⟩ }
      | .lines => { d with linesObj := some ⟨idv, false⟩ })
   else d,
   [EngCall.loadVector (isPointsB vt)],
   if idv < 0 then [.err] else [])

/-- The `for vecType in vecTypes` loop of `LoadVector`. -/
def loadVecTypes (eng : Bool → Int) (d : VectorData) :
    List VecType → VectorData × List EngCall × List LogMsg
| [] => (d, [], [])
| vt :: rest =>
  let r1 := loadVecType eng vt d
  let r2 := loadVecTypes eng r1.1 rest
  (r2.1, r1.2.1 ++ r2.2.1, r1.2.2 ++ r2.2.2)

/-- The `vecTypes` chosen from the `points` parameter of `LoadVector`
(lines 833-842). -/
def vecTypesFor : Option Bool → List VecType
| none => [.points, .lines]
| some true => [.points]
| some false => [.lines]

/-- `LoadVector` (nviz_mapdisp.py:821-871): loads the selected sub-object
kinds and appends the item to `self.layers` (line 856).
Result: (registry record, engine calls, log, new layers). -/
def loadVector (eng : Bool → Int) (points : Option Bool) (d : VectorData)
    (layers : List Nat) (item : Nat) :
    VectorData × List EngCall × List LogMsg × List Nat :=
  let r := loadVecTypes eng d (vecTypesFor points)
  (r.1, r.2.1, r.2.2, layers ++ [item])

/-- The vector branch of `LoadDataLayers` (nviz_mapdisp.py:497-502):
`LoadVector(item, points=True)` iff `npoints > 0`, then
`LoadVector(item, points=False)` iff `nlines > 0`. -/
def loadVectorPass (npoints nlines : Nat) (eng : Bool → Int) (d : VectorData)
    (layers : List Nat) (item : Nat) :
    VectorData × List EngCall × List LogMsg × List Nat :=
  let r1 := if npoints > 0 then loadVector eng (some true) d layers item
            else (d, [], [], layers)
  let r2 := if nlines > 0 then loadVector eng (some false) r1.1 r1.2.2.2 item
            else (r1.1, [], [], r1.2.2.2)
  (r2.1, r1.2.1 ++ r2.2.1, r1.2.2.1 ++ r2.2.2.1, r2.2.2.2)

/-- One iteration of the `for vecType in vecTypes` loop of `UnloadVector`
(lines 896-913): skip when no `'object'` key; otherwise issue the engine
unload (`retF` gives its return value), log, and `pop('object')`
unconditionally. -/
def unloadVecStep (retF : Bool → Int) (isPts : Bool) (obj : Option ObjRec) :
    List EngCall × List LogMsg × Option ObjRec :=
  match obj with
  | none => ([], [], none)
  | some o =>
    ([EngCall.unloadVector o.id isPts],
     [if retF isPts == 0 then .err else .ok],
     none)

/-- `UnloadVector` (nviz_mapdisp.py:873-915).  `self.layers` is not touched
(the `self.layers.remove(id)` line is commented out in the source). -/
def unloadVector (retF : Bool → Int) (points : Option Bool) (d : VectorData) :
    List EngCall × List LogMsg × VectorData :=
  match points with
  | none =>
    let p := unloadVecStep retF true d.pointsObj
    let l := unloadVecStep retF false d.linesObj
    (p.1 ++ l.1, p.2.1 ++ l.2.1, ⟨p.2.2, l.2.2⟩)
  | some true =>
    let p := unloadVecStep retF true d.pointsObj
    (p.1, p.2.1, ⟨p.2.2, d.linesObj⟩)
  | some false =>
    let l := unloadVecStep retF false d.linesObj
    (l.1, l.2.1, ⟨d.pointsObj, l.2.2⟩)

/-! ## C9: cutting-plane updates (`UpdateCPlane`, lines 751-763) -/

/-- One entry of `self.cplanes`: rotation (tilt, rot), position (x, y, z)
and shading. -/
structure CPlane where
  rotTilt : Int
  rotRot : Int
  posX : Int
  posY : Int
  posZ : Int
  shading : Int
deriving DecidableEq, Repr

/-- The body of the `for each in event.update` loop of `UpdateCPlane`:
three independent equality tests on the field-group name.  Note the source
passes the literal `0` as first argument of `SetCPlaneRotation`. -/
def cplaneFieldCalls (cp : CPlane) (each : String) : List EngCall :=
  (if each = "rotation" then [.setCPlaneRotation 0 cp.rotTilt cp.rotRot] else []) ++
  (if each = "position" then [.setCPlaneTranslation cp.posX cp.posY cp.posZ] else []) ++
  (if each = "shading" then [.setFenceColor cp.shading] else [])

/-- The `for each in event.update` loop. -/
def cplaneCalls (cp : CPlane) : List String → List EngCall
| [] => []
| e :: rest => cplaneFieldCalls cp e ++ cplaneCalls cp rest

/-- `UpdateCPlane` (nviz_mapdisp.py:751-763): reads
`self.cplanes[event.current]` (an out-of-range index would raise, hence the
`Option`) and pushes each listed field group. -/
def updateCPlane (cplanes : List CPlane) (current : Nat) (upd : List String) :
    Option (List EngCall) :=
  if h : current < cplanes.length then
    some (cplaneCalls (cplanes.get ⟨current, h⟩) upd)
  else none

/-- Recognizers for the three cutting-plane call kinds. -/
def isRotCall : EngCall → Bool
| .setCPlaneRotation _ _ _ => true
| _ => false

def isPosCall : EngCall → Bool
| .setCPlaneTranslation _ _ _ => true
| _ => false

def isShadeCall : EngCall → Bool
| .setFenceColor _ => true
| _ => false

/-! ## C8: reference-surface linkage
(`UpdateVectorLinesProperties` 1185-1199, `GetLayerId` 1261-1290) -/

/-- The raster branch of `GetLayerId` (lines 1273-1282): look the name up
among loaded rasters (modelled as `(name, object id)` pairs); an empty name
(line 1263) and a missing name both give `-1`. -/
def getLayerIdRaster (rasters : List (String × Int)) (name : String) : PyVal :=
  if name.length < 1 then .int (-1)
  else
    match rasters.find? (fun r => r.1 == name) with
    | some r => .int r.2
    | none => .int (-1)

/-- The constant branch of `GetLayerId` (lines 1266-1271): constants are
`(display number, object id)` pairs matched against
`"constant#" + str(number)`.  When no constant matches, the source executes
`return self.constants`, returning the Python list itself. -/
def getLayerIdConstant (constants : List (Nat × Int)) (name : String) : PyVal :=
  if name.length < 1 then .int (-1)
  else
    match constants.find? (fun c => ("constant#" ++ toString c.1) == name) with
    | some c => .int c.2
    | none => .pylist

/-- The surface loop of `UpdateVectorLinesProperties` (lines 1186-1196):
for each `(name, show)` entry, try `GetLayerId` with type `'raster'` then
`'constant'`; on the first result with `sid > -1` attach or detach and
`break`. -/
def vectorLinesSurfaceCalls (rasters : List (String × Int))
    (constants : List (Nat × Int)) (id : Int) :
    List (String × Bool) → List EngCall
| [] => []
| (name, shw) :: rest =>
  (let sidR := getLayerIdRaster rasters name
   if pyGtNegOne sidR then
     [if shw then EngCall.setVectorLineSurface id sidR
      else EngCall.unsetVectorLineSurface id sidR]
   else
     let sidC := getLayerIdConstant constants name
     if pyGtNegOne sidC then
       [if shw then EngCall.setVectorLineSurface id sidC
        else EngCall.unsetVectorLineSurface id sidC]
     else []) ++ vectorLinesSurfaceCalls rasters constants id rest

/-! ## C1 / C5: surface property push (`UpdateSurfaceProperties`,
lines 1009-1087) -/

/-- One entry of `data['attribute']`: the `'update'` key presence, the
`'map'` flag (`none` models Python `None`, i.e. "unset"), and the value. -/
structure AttrState where
  update : Bool
  map : Option Bool
  value : PyV
deriving DecidableEq, Repr

/-- The four surface attributes the loop at line 1012 walks; `none` models
`attrb not in data['attribute']`. -/
structure SurfAttrs where
  color : Option AttrState
  mask : Option AttrState
  transp : Option AttrState
  shine : Option AttrState
deriving DecidableEq, Repr

/-- `data['draw']['resolution']`. -/
structure DrawRes where
  update : Bool
  coarse : Int
  fine : Int
deriving DecidableEq, Repr

/-- `data['draw']['mode']`: cached numeric code (negative means "not yet
computed", line 1058) plus the symbolic `desc` triple. -/
structure DrawMode where
  update : Bool
  value : Int
  descMode : String
  descStyle : String
  descShading : String
deriving DecidableEq, Repr

/-- `data['draw']['wire-color']`. -/
structure DrawWire where
  update : Bool
  value : String
deriving DecidableEq, Repr

/-- `data['draw']`, including the `'all'` apply-to-all flag. -/
structure DrawData where
  res : DrawRes
  mode : DrawMode
  wire : DrawWire
  all : Bool
deriving DecidableEq, Repr

/-- `data['position']`. -/
structure SurfPos where
  update : Bool
  x : Int
  y : Int
  z : Int
deriving DecidableEq, Repr

/-- The whole surface property record passed to
`UpdateSurfaceProperties`. -/
structure SurfaceData where
  attr : SurfAttrs
  draw : DrawData
  position : SurfPos
deriving DecidableEq, Repr

/-- Names of the four attributes walked by the loop at line 1012. -/
inductive SAttr
| color
| mask
| transp
| shine
deriving DecidableEq, Repr

/-- The body of the attribute loop of `UpdateSurfaceProperties`
(nviz_mapdisp.py:1012-1043) for one attribute: skip when absent or not
dirty; when `map is None`, call the unset variant for `mask`/`transp` only;
otherwise skip empty string values (`continue` at line 1032, which also
skips the `pop('update')`); otherwise call the set variant; the
`pop('update')` at line 1043 runs in the unset and set branches. -/
def surfaceAttrStep (id : Int) (attrb : SAttr) (a : Option AttrState) :
    List EngCall × Option AttrState :=
  match a with
  | none => ([], none)
  | some s =>
    if s.update then
      match s.map with
      | none =>
        ((match attrb with
          | .mask => [EngCall.unsetSurfaceMask id]
          | .transp => [EngCall.unsetSurfaceTransp id]
          | _ => []),
         some { s with update := false })
      | some m =>
        if isEmptyStr s.value then ([], some s)
        else
          ((match attrb with
            | .color => [EngCall.setSurfaceColor id m (pyToString s.value)]
            | .mask => [EngCall.setSurfaceMask id false (pyToString s.value)]
            | .transp => [EngCall.setSurfaceTransp id m (pyToString s.value)]
            | .shine => [EngCall.setSurfaceShine id m (pyToString s.value)]),
           some { s with update := false })
    else ([], some s)

/-- The draw-resolution block (lines 1046-1054): with the apply-to-all flag
the call targets `-1`. -/
def surfaceResStep (id : Int) (all : Bool) (r : DrawRes) :
    List EngCall × DrawRes :=
  if r.update then
    ([EngCall.setSurfaceRes (if all then -1 else id) r.fine r.coarse],
     { r with update := false })
  else ([], r)

/-- The draw-style block (lines 1057-1069): a negative cached code is
recomputed through `nvizDefault.GetDrawMode` (modelled by `g`) and cached
back. -/
def surfaceModeStep (g : String → String → String → Int) (id : Int)
    (all : Bool) (m : DrawMode) : List EngCall × DrawMode :=
  if m.update then
    let v := if m.value < 0 then g m.descMode m.descStyle m.descShading else m.value
    ([EngCall.setSurfaceStyle (if all then -1 else id) v],
     { m with update := false, value := v })
  else ([], m)

/-- The wire-color block (lines 1072-1078). -/
def surfaceWireStep (id : Int) (all : Bool) (w : DrawWire) :
    List EngCall × DrawWire :=
  if w.update then
    ([EngCall.setWireColor (if all then -1 else id) w.value],
     { w with update := false })
  else ([], w)

/-- The position block (lines 1081-1086); never wildcarded. -/
def surfacePosStep (id : Int) (p : SurfPos) : List EngCall × SurfPos :=
  if p.update then
    ([EngCall.setSurfacePosition id p.x p.y p.z], { p with update := false })
  else ([], p)

/-- `UpdateSurfaceProperties` (nviz_mapdisp.py:1009-1087): the attribute
loop unrolled over `('color', 'mask', 'transp', 'shine')`, then the
resolution, style, wire-color and position blocks; finally
`data['draw']['all'] = False` (line 1087) unconditionally. -/
def updateSurfaceProperties (g : String → String → String → Int) (id : Int)
    (d : SurfaceData) : List EngCall × SurfaceData :=
  let ac := surfaceAttrStep id .color d.attr.color
  let am := surfaceAttrStep id .mask d.attr.mask
  let atr := surfaceAttrStep id .transp d.attr.transp
  let ash := surfaceAttrStep id .shine d.attr.shine
  let rr := surfaceResStep id d.draw.all d.draw.res
  let mm := surfaceModeStep g id d.draw.all d.draw.mode
  let ww := surfaceWireStep id d.draw.all d.draw.wire
  let pp := surfacePosStep id d.position
  (ac.1 ++ am.1 ++ atr.1 ++ ash.1 ++ rr.1 ++ mm.1 ++ ww.1 ++ pp.1,
   { attr := { color := ac.2, mask := am.2, transp := atr.2, shine := ash.2 },
     draw := { res := rr.2, mode := mm.2, wire := ww.2, all := false },
     position := pp.2 })

/-! Spec-side characterizations of the calls each block emits, used to state
what the push pass does as a function of the dirty flags. -/

/-- Color: pushed iff present, dirty, with a source, and not an empty
string; there is no unset variant. -/
def colorCallsExpected (id : Int) : Option AttrState → List EngCall
| some ⟨true, some m, v⟩ => if isEmptyStr v then [] else [.setSurfaceColor id m (pyToString v)]
| _ => []

/-- Mask: dirty and unset gives the unset call; dirty and set (non-empty)
gives the set call (the source passes the literal `False` for the map
flag). -/
def maskCallsExpected (id : Int) : Option AttrState → List EngCall
| some ⟨true, none, _⟩ => [.unsetSurfaceMask id]
| some ⟨true, some _, v⟩ => if isEmptyStr v then [] else [.setSurfaceMask id false (pyToString v)]
| _ => []

/-- Transparency: like mask, but the set call keeps the map flag. -/
def transpCallsExpected (id : Int) : Option AttrState → List EngCall
| some ⟨true, none, _⟩ => [.unsetSurfaceTransp id]
| some ⟨true, some m, v⟩ => if isEmptyStr v then [] else [.setSurfaceTransp id m (pyToString v)]
| _ => []

/-- Shine: like color, no unset variant. -/
def shineCallsExpected (id : Int) : Option AttrState → List EngCall
| some ⟨true, some m, v⟩ => if isEmptyStr v then [] else [.setSurfaceShine id m (pyToString v)]
| _ => []

/-- Resolution: pushed iff dirty; wildcard target under apply-to-all. -/
def resCallsExpected (id : Int) (all : Bool) (r : DrawRes) : List EngCall :=
  if r.update then [.setSurfaceRes (if all then -1 else id) r.fine r.coarse] else []

/-- Style: pushed iff dirty, with lazy resolution of a negative code. -/
def styleCallsExpected (g : String → String → String → Int) (id : Int)
    (all : Bool) (m : DrawMode) : List EngCall :=
  if m.update then
    [.setSurfaceStyle (if all then -1 else id)
      (if m.value < 0 then g m.descMode m.descStyle m.descShading else m.value)]
  else []

/-- Wire color: pushed iff dirty; wildcard target under apply-to-all. -/
def wireCallsExpected (id : Int) (all : Bool) (w : DrawWire) : List EngCall :=
  if w.update then [.setWireColor (if all then -1 else id) w.value] else []

/-- Position: pushed iff dirty. -/
def posCallsExpected (id : Int) (p : SurfPos) : List EngCall :=
  if p.update then [.setSurfacePosition id p.x p.y p.z] else []

/-- Recognizer for the three apply-to-all draw-group call kinds. -/
def isDrawGroupCall : EngCall → Bool
| .setSurfaceRes _ _ _ => true
| .setSurfaceStyle _ _ => true
| .setWireColor _ _ => true
| _ => false

/-- Whether a draw-group call targets the wildcard id `-1` (vacuously true
for other calls). -/
def wildTarget : EngCall → Bool
| .setSurfaceRes i _ _ => i == -1
| .setSurfaceStyle i _ => i == -1
| .setWireColor i _ => i == -1
| _ => true

/-! ## Helper lemmas about the surface push blocks -/

theorem surfaceAttrStep_color_calls (id : Int) (a : Option AttrState) :
    (surfaceAttrStep id .color a).1 = colorCallsExpected id a := by
  rcases a with _ | ⟨u, m, v⟩
  · rfl
  · cases u <;> rcases m with _ | mv <;> by_cases h : isEmptyStr v <;>
      simp [surfaceAttrStep, colorCallsExpected, h]

theorem surfaceAttrStep_mask_calls (id : Int) (a : Option AttrState) :
    (surfaceAttrStep id .mask a).1 = maskCallsExpected id a := by
  rcases a with _ | ⟨u, m, v⟩
  · rfl
  · cases u <;> rcases m with _ | mv <;> by_cases h : isEmptyStr v <;>
      simp [surfaceAttrStep, maskCallsExpected, h]

theorem surfaceAttrStep_transp_calls (id : Int) (a : Option AttrState) :
    (surfaceAttrStep id .transp a).1 = transpCallsExpected id a := by
  rcases a with _ | ⟨u, m, v⟩
  · rfl
  · cases u <;> rcases m with _ | mv <;> by_cases h : isEmptyStr v <;>
      simp [surfaceAttrStep, transpCallsExpected, h]

theorem surfaceAttrStep_shine_calls (id : Int) (a : Option AttrState) :
    (surfaceAttrStep id .shine a).1 = shineCallsExpected id a := by
  rcases a with _ | ⟨u, m, v⟩
  · rfl
  · cases u <;> rcases m with _ | mv <;> by_cases h : isEmptyStr v <;>
      simp [surfaceAttrStep, shineCallsExpected, h]

theorem surfaceResStep_calls (id : Int) (all : Bool) (r : DrawRes) :
    (surfaceResStep id all r).1 = resCallsExpected id all r := by
  by_cases h : r.update <;> simp [surfaceResStep, resCallsExpected, h]

theorem surfaceModeStep_calls (g : String → String → String → Int) (id : Int)
    (all : Bool) (m : DrawMode) :
    (surfaceModeStep g id all m).1 = styleCallsExpected g id all m := by
  by_cases h : m.update <;> simp [surfaceModeStep, styleCallsExpected, h]

theorem surfaceWireStep_calls (id : Int) (all : Bool) (w : DrawWire) :
    (surfaceWireStep id all w).1 = wireCallsExpected id all w := by
  by_cases h : w.update <;> simp [surfaceWireStep, wireCallsExpected, h]

theorem surfacePosStep_calls (id : Int) (p : SurfPos) :
    (surfacePosStep id p).1 = posCallsExpected id p := by
  by_cases h : p.update <;> simp [surfacePosStep, posCallsExpected, h]

/-- The calls of `UpdateSurfaceProperties` as a function of the record. -/
theorem updateSurfaceProperties_calls (g : String → String → String → Int)
    (id : Int) (d : SurfaceData) :
    (updateSurfaceProperties g id d).1 =
      colorCallsExpected id d.attr.color ++ maskCallsExpected id d.attr.mask ++
      transpCallsExpected id d.attr.transp ++ shineCallsExpected id d.attr.shine ++
      resCallsExpected id d.draw.all d.draw.res ++
      styleCallsExpected g id d.draw.all d.draw.mode ++
      wireCallsExpected id d.draw.all d.draw.wire ++
      posCallsExpected id d.position := by
  simp only [updateSurfaceProperties, surfaceAttrStep_color_calls,
    surfaceAttrStep_mask_calls, surfaceAttrStep_transp_calls,
    surfaceAttrStep_shine_calls, surfaceResStep_calls, surfaceModeStep_calls,
    surfaceWireStep_calls, surfacePosStep_calls]

theorem surfaceAttrStep_idem (id id' : Int) (attrb : SAttr) (a : Option AttrState) :
    (surfaceAttrStep id' attrb (surfaceAttrStep id attrb a).2).1 = [] := by
  rcases a with _ | ⟨u, m, v⟩
  · rfl
  · cases u
    · simp [surfaceAttrStep]
    · rcases m with _ | mv
      · simp [surfaceAttrStep]
      · by_cases h : isEmptyStr v <;> simp [surfaceAttrStep, h]

theorem surfaceResStep_idem (id id' : Int) (all all' : Bool) (r : DrawRes) :
    (surfaceResStep id' all' (surfaceResStep id all r).2).1 = [] := by
  by_cases h : r.update <;> simp [surfaceResStep, h]

theorem surfaceModeStep_idem (g g' : String → String → String → Int)
    (id id' : Int) (all all' : Bool) (m : DrawMode) :
    (surfaceModeStep g' id' all' (surfaceModeStep g id all m).2).1 = [] := by
  by_cases h : m.update <;> simp [surfaceModeStep, h]

theorem surfaceWireStep_idem (id id' : Int) (all all' : Bool) (w : DrawWire) :
    (surfaceWireStep id' all' (surfaceWireStep id all w).2).1 = [] := by
  by_cases h : w.update <;> simp [surfaceWireStep, h]

theorem surfacePosStep_idem (id id' : Int) (p : SurfPos) :
    (surfacePosStep id' (surfacePosStep id p).2).1 = [] := by
  by_cases h : p.update <;> simp [surfacePosStep, h]

/-- Running the surface push twice in a row emits no call the second time. -/
theorem updateSurfaceProperties_twice (g : String → String → String → Int)
    (id : Int) (d : SurfaceData) :
    (updateSurfaceProperties g id (updateSurfaceProperties g id d).2).1 = [] := by
  simp [updateSurfaceProperties, surfaceAttrStep_idem, surfaceResStep_idem,
    surfaceModeStep_idem, surfaceWireStep_idem, surfacePosStep_idem]

/-! ## C1 -/

/-- C1 (amended): the attribute calls of a surface property push are exactly
characterized by the dirty flags together with the skip rules visible in the
source — an attribute is pushed only if dirty; a dirty attribute that is
unset with no unset variant (color, shine) or whose value is an empty string
is skipped with no engine call; and running the pass twice in a row on the
same record without intervening mutation performs no engine attribute call
the second time. -/
theorem c1_update_pass_amended (g : String → String → String → Int)
    (id : Int) (d : SurfaceData) :
    (updateSurfaceProperties g id d).1 =
      colorCallsExpected id d.attr.color ++ maskCallsExpected id d.attr.mask ++
      transpCallsExpected id d.attr.transp ++ shineCallsExpected id d.attr.shine ++
      resCallsExpected id d.draw.all d.draw.res ++
      styleCallsExpected g id d.draw.all d.draw.mode ++
      wireCallsExpected id d.draw.all d.draw.wire ++
      posCallsExpected id d.position ∧
    (updateSurfaceProperties g id (updateSurfaceProperties g id d).2).1 = [] :=
  ⟨updateSurfaceProperties_calls g id d, updateSurfaceProperties_twice g id d⟩

/-- A trivial stand-in for `nvizDefault.GetDrawMode`. -/
def g0 : String → String → String → Int := fun _ _ _ => 4

/-- Surface record whose color attribute is dirty but unset (`map is None`):
a concrete input refuting "pushed if and only if dirty". -/
def dC1 : SurfaceData :=
  { attr := { color := some ⟨true, none, PyV.str "red"⟩, mask := none,
              transp := none, shine := none },
    draw := { res := ⟨false, 6, 3⟩,
              mode := ⟨false, 1, "coarse", "surface", "gouraud"⟩,
              wire := ⟨false, "0:0:0"⟩, all := false },
    position := ⟨false, 0, 0, 0⟩ }

/-- C1 counterexample: on `dC1` the color attribute's dirty flag is set, yet
the push pass performs no engine attribute call at all, refuting the claimed
"pushed if and only if dirty" equivalence. -/
theorem c1_dirty_iff_counterexample :
    dC1.attr.color = some ⟨true, none, PyV.str "red"⟩ ∧
    (updateSurfaceProperties g0 1 dC1).1 = [] := by
  exact ⟨rfl, rfl⟩

/-! ## C5 -/

theorem colorCallsExpected_no_drawGroup (id : Int) (a : Option AttrState) :
    (colorCallsExpected id a).filter isDrawGroupCall = [] := by
  rcases a with _ | ⟨u, m, v⟩
  · rfl
  · cases u <;> rcases m with _ | mv <;>
      by_cases h : isEmptyStr v <;>
      simp [colorCallsExpected, isDrawGroupCall, h]

theorem maskCallsExpected_no_drawGroup (id : Int) (a : Option AttrState) :
    (maskCallsExpected id a).filter isDrawGroupCall = [] := by
  rcases a with _ | ⟨u, m, v⟩
  · rfl
  · cases u <;> rcases m with _ | mv <;>
      by_cases h : isEmptyStr v <;>
      simp [maskCallsExpected, isDrawGroupCall, h]

theorem transpCallsExpected_no_drawGroup (id : Int) (a : Option AttrState) :
    (transpCallsExpected id a).filter isDrawGroupCall = [] := by
  rcases a with _ | ⟨u, m, v⟩
  · rfl
  · cases u <;> rcases m with _ | mv <;>
      by_cases h : isEmptyStr v <;>
      simp [transpCallsExpected, isDrawGroupCall, h]

theorem shineCallsExpected_no_drawGroup (id : Int) (a : Option AttrState) :
    (shineCallsExpected id a).filter isDrawGroupCall = [] := by
  rcases a with _ | ⟨u, m, v⟩
  · rfl
  · cases u <;> rcases m with _ | mv <;>
      by_cases h : isEmptyStr v <;>
      simp [shineCallsExpected, isDrawGroupCall, h]

theorem posCallsExpected_no_drawGroup (id : Int) (p : SurfPos) :
    (posCallsExpected id p).filter isDrawGroupCall = [] := by
  by_cases h : p.update <;> simp [posCallsExpected, isDrawGroupCall, h]

/-- C5: when the draw group is flagged apply-to-all, every draw-resolution,
draw-style and wire-color engine call of the push targets the wildcard
object id `-1`, and the apply-to-all flag is reset to `false` after the push
regardless of which per-attribute dirty flags were set. -/
theorem c5_apply_to_all_wildcard (g : String → String → String → Int)
    (id : Int) (d : SurfaceData) (h : d.draw.all = true) :
    (((updateSurfaceProperties g id d).1.filter isDrawGroupCall).all wildTarget
      = true) ∧
    (updateSurfaceProperties g id d).2.draw.all = false := by
  refine ⟨?_, rfl⟩
  rw [updateSurfaceProperties_calls]
  simp [List.filter_append, List.all_append,
    colorCallsExpected_no_drawGroup, maskCallsExpected_no_drawGroup,
    transpCallsExpected_no_drawGroup, shineCallsExpected_no_drawGroup,
    posCallsExpected_no_drawGroup, h, resCallsExpected, styleCallsExpected,
    wireCallsExpected, isDrawGroupCall, wildTarget]

/-- Surface record with the apply-to-all flag and all draw dirty flags set. -/
def dC5 : SurfaceData :=
  { attr := { color := none, mask := none, transp := none, shine := none },
    draw := { res := ⟨true, 9, 3⟩,
              mode := ⟨true, 1, "coarse", "surface", "gouraud"⟩,
              wire := ⟨true, "0:0:0"⟩, all := true },
    position := ⟨false, 0, 0, 0⟩ }

theorem c5_apply_to_all_wildcard_witness :
    (((updateSurfaceProperties g0 7 dC5).1.filter isDrawGroupCall).all wildTarget
      = true) ∧
    (updateSurfaceProperties g0 7 dC5).2.draw.all = false :=
  c5_apply_to_all_wildcard g0 7 dC5 rfl

/-! ## C7 -/

/-- C7: every mouse-wheel perspective step yields a value within `[1, 100]`,
and whenever the clamped new value equals the previous one, no engine
`SetView` call and no redraw are performed. -/
theorem c7_perspective_clamp_noop (hasToolWin : Bool)
    (wheel step prev x y height twist : Int) (hw : wheel ≠ 0) :
    1 ≤ (onWheelPersp hasToolWin wheel step prev x y height twist).1 ∧
    (onWheelPersp hasToolWin wheel step prev x y height twist).1 ≤ 100 ∧
    ((onWheelPersp hasToolWin wheel step prev x y height twist).1 = prev →
      (onWheelPersp hasToolWin wheel step prev x y height twist).2 = []) := by
  simp only [onWheelPersp, if_neg hw]
  set val : Int := if wheel > 0 then (-1) * step else step with hval
  by_cases h1 : prev + val < 1
  · simp only [if_pos h1]
    exact ⟨le_refl 1, by norm_num, fun h => by simp [← h]⟩
  · by_cases h2 : prev + val > 100
    · simp only [if_neg h1, if_pos h2]
      exact ⟨by norm_num, le_refl 100, fun h => by simp [← h]⟩
    · simp only [if_neg h1, if_neg h2]
      exact ⟨by omega, by omega, fun h => by simp [h]⟩

theorem c7_perspective_clamp_noop_witness :
    (onWheelPersp true 1 5 1 0 0 0 0).2 = [] :=
  (c7_perspective_clamp_noop true 1 5 1 0 0 0 0 (by decide)).2.2 (by decide)

/-! ## C10 -/

/-- C10: when the engine load call for a raster or 3d-raster returns a
negative id, the item is nevertheless appended to the loaded-layers list
with no `'object'` record, the failure is logged, and every subsequent load
pass treats the item as already loaded (so it is never retried). -/
theorem c10_failed_load_registered (kind : RKind) (name : String)
    (engineId : Int) (layers : List Nat) (item : Nat) (h : engineId < 0) :
    (loadRaster kind name engineId layers item).2.2.1 = none ∧
    (loadRaster kind name engineId layers item).2.2.2 = layers ++ [item] ∧
    (loadRaster kind name engineId layers item).2.1 = [LogMsg.err] ∧
    alreadyLoaded (loadRaster kind name engineId layers item).2.2.2 item
      = true := by
  refine ⟨?_, rfl, ?_, ?_⟩
  · have : ¬engineId > 0 := by omega
    simp [loadRaster, this]
  · simp [loadRaster, h]
  · simp [loadRaster, alreadyLoaded]

theorem c10_failed_load_registered_witness :
    (loadRaster RKind.raster "elev" (-1) [] 3).2.2.1 = none ∧
    (loadRaster RKind.raster "elev" (-1) [] 3).2.2.2 = [] ++ [3] ∧
    (loadRaster RKind.raster "elev" (-1) [] 3).2.1 = [LogMsg.err] ∧
    alreadyLoaded (loadRaster RKind.raster "elev" (-1) [] 3).2.2.2 3 = true :=
  c10_failed_load_registered RKind.raster "elev" (-1) [] 3 (by decide)

/-! ## C2 -/

/-- C2: unloading always removes the `'object'` id-record — and, for
rasters/volumes, removes the item from the loaded-layers list — even when
the engine unload call returns 0; the failure is only logged (exactly one
engine unload call per loaded object, never a retry). -/
theorem c2_unload_drops_registry (kind : RKind) (ret : Int) (o : ObjRec)
    (layers : List Nat) (item : Nat) (retF : Bool → Int) (dv : VectorData)
    (hm : item ∈ layers) :
    unloadRaster kind ret (some o) layers item =
      some ([unloadCallFor kind o.id],
            [if ret == 0 then LogMsg.err else LogMsg.ok],
            none, layers.erase item) ∧
    (unloadVector retF none dv).2.2 = ⟨none, none⟩ ∧
    (unloadVector retF none dv).1.length =
      (if dv.pointsObj.isSome then 1 else 0) +
      (if dv.linesObj.isSome then 1 else 0) := by
  refine ⟨by simp [unloadRaster, hm], ?_, ?_⟩ <;>
    rcases dv with ⟨_ | p, _ | l⟩ <;> simp [unloadVector, unloadVecStep]

/-- Fixed engine response reporting unload failure. -/
def retF0 : Bool → Int := fun _ => 0

theorem c2_unload_drops_registry_witness :
    unloadRaster RKind.raster 0 (some ⟨5, false⟩) [2] 2 =
      some ([EngCall.unloadSurface 5], [LogMsg.err], none, []) ∧
    (unloadVector retF0 none ⟨some ⟨1, false⟩, some ⟨2, false⟩⟩).2.2 =
      ⟨none, none⟩ := by
  have h := c2_unload_drops_registry RKind.raster 0 ⟨5, false⟩ [2] 2 retF0
    ⟨some ⟨1, false⟩, some ⟨2, false⟩⟩ (by decide)
  exact ⟨h.1.trans (by decide), h.2.1⟩

/-! ## C9 -/

theorem cplaneFieldCalls_filter_rot (cp : CPlane) (e : String) :
    (cplaneFieldCalls cp e).filter isRotCall =
      (if e = "rotation" then [EngCall.setCPlaneRotation 0 cp.rotTilt cp.rotRot]
       else []) := by
  by_cases h1 : e = "rotation"
  · subst h1; simp [cplaneFieldCalls, isRotCall]
  · by_cases h2 : e = "position"
    · subst h2; simp [cplaneFieldCalls, isRotCall]
    · by_cases h3 : e = "shading" <;>
        simp [cplaneFieldCalls, isRotCall, h1, h2, h3]

theorem cplaneFieldCalls_filter_pos (cp : CPlane) (e : String) :
    (cplaneFieldCalls cp e).filter isPosCall =
      (if e = "position" then [EngCall.setCPlaneTranslation cp.posX cp.posY cp.posZ]
       else []) := by
  by_cases h1 : e = "rotation"
  · subst h1; simp [cplaneFieldCalls, isPosCall]
  · by_cases h2 : e = "position"
    · subst h2; simp [cplaneFieldCalls, isPosCall]
    · by_cases h3 : e = "shading" <;>
        simp [cplaneFieldCalls, isPosCall, h1, h2, h3]

theorem cplaneFieldCalls_filter_shade (cp : CPlane) (e : String) :
    (cplaneFieldCalls cp e).filter isShadeCall =
      (if e = "shading" then [EngCall.setFenceColor cp.shading] else []) := by
  by_cases h1 : e = "rotation"
  · subst h1; simp [cplaneFieldCalls, isShadeCall]
  · by_cases h2 : e = "position"
    · subst h2; simp [cplaneFieldCalls, isShadeCall]
    · by_cases h3 : e = "shading" <;>
        simp [cplaneFieldCalls, isShadeCall, h1, h2, h3]

theorem cplaneCalls_filter_rot_nil (cp : CPlane) (upd : List String)
    (h : upd.contains "rotation" = false) :
    (cplaneCalls cp upd).filter isRotCall = [] := by
  induction upd with
  | nil => rfl
  | cons e rest ih =>
    simp only [List.contains_cons, Bool.or_eq_false_iff, beq_eq_false_iff_ne,
      ne_eq] at h
    have hne : ¬e = "rotation" := fun hh => h.1 hh.symm
    simp [cplaneCalls, List.filter_append, cplaneFieldCalls_filter_rot, ih h.2, hne]

theorem cplaneCalls_filter_pos_nil (cp : CPlane) (upd : List String)
    (h : upd.contains "position" = false) :
    (cplaneCalls cp upd).filter isPosCall = [] := by
  induction upd with
  | nil => rfl
  | cons e rest ih =>
    simp only [List.contains_cons, Bool.or_eq_false_iff, beq_eq_false_iff_ne,
      ne_eq] at h
    have hne : ¬e = "position" := fun hh => h.1 hh.symm
    simp [cplaneCalls, List.filter_append, cplaneFieldCalls_filter_pos, ih h.2, hne]

theorem cplaneCalls_filter_shade_nil (cp : CPlane) (upd : List String)
    (h : upd.contains "shading" = false) :
    (cplaneCalls cp upd).filter isShadeCall = [] := by
  induction upd with
  | nil => rfl
  | cons e rest ih =>
    simp only [List.contains_cons, Bool.or_eq_false_iff, beq_eq_false_iff_ne,
      ne_eq] at h
    have hne : ¬e = "shading" := fun hh => h.1 hh.symm
    simp [cplaneCalls, List.filter_append, cplaneFieldCalls_filter_shade, ih h.2, hne]

theorem cplaneCalls_mem_of_contains (cp : CPlane) (upd : List String)
    (e : String) (c : EngCall) (h : upd.contains e = true)
    (hc : c ∈ cplaneFieldCalls cp e) :
    c ∈ cplaneCalls cp upd := by
  induction upd with
  | nil => simp [List.contains_nil] at h
  | cons f rest ih =>
    simp only [List.contains_cons, Bool.or_eq_true, beq_iff_eq] at h
    rcases h with h | h
    · subst h; exact List.mem_append_left _ hc
    · exact List.mem_append_right _ (ih h)

/-- C9: `UpdateCPlane` pushes exactly the listed field groups, each with the
values of the cutting plane at the given index; a field group not listed
triggers no engine call of its kind, and each listed group's call is
emitted. -/
theorem c9_cplane_partial_update (cplanes : List CPlane) (current : Nat)
    (upd : List String) (h : current < cplanes.length) :
    updateCPlane cplanes current upd =
      some (cplaneCalls (cplanes.get ⟨current, h⟩) upd) ∧
    (upd.contains "rotation" = false →
      (cplaneCalls (cplanes.get ⟨current, h⟩) upd).filter isRotCall = []) ∧
    (upd.contains "position" = false →
      (cplaneCalls (cplanes.get ⟨current, h⟩) upd).filter isPosCall = []) ∧
    (upd.contains "shading" = false →
      (cplaneCalls (cplanes.get ⟨current, h⟩) upd).filter isShadeCall = []) ∧
    (upd.contains "rotation" = true →
      EngCall.setCPlaneRotation 0 (cplanes.get ⟨current, h⟩).rotTilt
        (cplanes.get ⟨current, h⟩).rotRot ∈
        cplaneCalls (cplanes.get ⟨current, h⟩) upd) ∧
    (upd.contains "position" = true →
      EngCall.setCPlaneTranslation (cplanes.get ⟨current, h⟩).posX
        (cplanes.get ⟨current, h⟩).posY (cplanes.get ⟨current, h⟩).posZ ∈
        cplaneCalls (cplanes.get ⟨current, h⟩) upd) ∧
    (upd.contains "shading" = true →
      EngCall.setFenceColor (cplanes.get ⟨current, h⟩).shading ∈
        cplaneCalls (cplanes.get ⟨current, h⟩) upd) := by
  refine ⟨by simp [updateCPlane, h], ?_, ?_, ?_, ?_, ?_, ?_⟩
  · exact cplaneCalls_filter_rot_nil _ upd
  · exact cplaneCalls_filter_pos_nil _ upd
  · exact cplaneCalls_filter_shade_nil _ upd
  · intro hc
    exact cplaneCalls_mem_of_contains _ upd "rotation" _ hc
      (by simp [cplaneFieldCalls])
  · intro hc
    exact cplaneCalls_mem_of_contains _ upd "position" _ hc
      (by simp [cplaneFieldCalls])
  · intro hc
    exact cplaneCalls_mem_of_contains _ upd "shading" _ hc
      (by simp [cplaneFieldCalls])

/-- Two concrete cutting planes. -/
def cpA : CPlane := ⟨10, 20, 1, 2, 3, 8⟩
def cpB : CPlane := ⟨30, 40, 4, 5, 6, 9⟩

theorem c9_cplane_partial_update_witness :
    updateCPlane [cpA, cpB] 1 ["rotation", "shading"] =
      some [EngCall.setCPlaneRotation 0 30 40, EngCall.setFenceColor 9] ∧
    (cplaneCalls cpB ["rotation", "shading"]).filter isPosCall = [] := by
  have h := c9_cplane_partial_update [cpA, cpB] 1 ["rotation", "shading"]
    (by decide)
  exact ⟨h.1.trans (by decide), h.2.2.1 (by decide)⟩

/-! ## C6 -/

/-- C6: loading a checked vector layer loads the `'points'` sub-object iff
`npoints > 0` and the `'lines'` sub-object iff `nlines > 0`, each loaded
sub-object receiving its own engine object id slot in the same record. -/
theorem c6_vector_subobject_loading (npoints nlines : Nat) (eng : Bool → Int)
    (d : VectorData) (layers : List Nat) (item : Nat)
    (hp : d.pointsObj = none) (hl : d.linesObj = none)
    (hep : eng true > 0) (hel : eng false > 0) :
    (loadVectorPass npoints nlines eng d layers item).1.pointsObj =
      (if npoints > 0 then some ⟨eng true, false⟩ else none) ∧
    (loadVectorPass npoints nlines eng d layers item).1.linesObj =
      (if nlines > 0 then some ⟨eng false, false⟩ else none) ∧
    (loadVectorPass npoints nlines eng d layers item).2.1 =
      (if npoints > 0 then [EngCall.loadVector true] else []) ++
      (if nlines > 0 then [EngCall.loadVector false] else []) := by
  rcases d with ⟨dp, dl⟩
  simp only at hp hl
  subst hp; subst hl
  by_cases h1 : npoints > 0 <;> by_cases h2 : nlines > 0 <;>
    simp [loadVectorPass, loadVector, loadVecTypes, loadVecType, vecTypesFor,
      isPointsB, h1, h2, hep, hel]

/-- Engine response granting positive ids to vector loads. -/
def engPos : Bool → Int := fun b => if b then 3 else 4

theorem c6_vector_subobject_loading_witness :
    (loadVectorPass 0 5 engPos ⟨none, none⟩ [] 2).1.pointsObj = none ∧
    (loadVectorPass 0 5 engPos ⟨none, none⟩ [] 2).1.linesObj =
      some ⟨4, false⟩ ∧
    (loadVectorPass 0 5 engPos ⟨none, none⟩ [] 2).2.1 =
      [EngCall.loadVector false] := by
  have h := c6_vector_subobject_loading 0 5 engPos ⟨none, none⟩ [] 2 rfl rfl
    (by decide) (by decide)
  exact ⟨h.1.trans (by decide), h.2.1.trans (by decide), h.2.2.trans (by decide)⟩

/-! ## C8 -/

/-- C8: evaluating the reference-surface loop of
`UpdateVectorLinesProperties` at a configured name that no loaded raster or
constant carries: instead of skipping silently, the code issues an engine
attach call whose surface argument is the Python list `self.constants`
(because `GetLayerId` falls through to `return self.constants` and Python 2
evaluates `list > -1` as true).  The second conjunct shows the normal
resolved-name path for contrast. -/
theorem c8_missing_surface_name_engine_call :
    vectorLinesSurfaceCalls [] [] 7 [("elev", true)] =
      [EngCall.setVectorLineSurface 7 PyVal.pylist] ∧
    vectorLinesSurfaceCalls [("elev", 4)] [] 7 [("elev", true)] =
      [EngCall.setVectorLineSurface 7 (PyVal.int 4)] := by
  exact ⟨rfl, rfl⟩

/-! ## C3 / C4: scene command serialization (`Nviz_cmd_command`,
lines 1292-1437)

Python string idioms modelled on `List Char`: `strip(', ')`,
`split(',')[0]`, `split('=')[1]`, and substring containment (`in`). -/

/-- Characters stripped by `strip(', ')`. -/
def stripChar (c : Char) : Bool := c == ',' || c == ' '

/-- `strip(', ')` on a character list: drop from the front, then from the
back. -/
def pyStripL (cs : List Char) : List Char :=
  ((cs.dropWhile stripChar).reverse.dropWhile stripChar).reverse

/-- Python `s.strip(', ')`. -/
def pyStrip (s : String) : String := ⟨pyStripL s.data⟩

/-- Python `s.split(',')[0]`. -/
def firstField (s : String) : String := ⟨s.data.takeWhile (fun c => c != ',')⟩

/-- Whether `pat` occurs at the head of `s`. -/
def startsList : List Char → List Char → Bool
| [], _ => true
| _ :: _, [] => false
| a :: as, b :: bs => a == b && startsList as bs

/-- Substring occurrence on character lists. -/
def containsSeq (pat : List Char) : List Char → Bool
| [] => pat.isEmpty
| c :: rest => startsList pat (c :: rest) || containsSeq pat rest

/-- Python `pat in s`. -/
def pyIn (pat s : String) : Bool := containsSeq pat.data s.data

/-- Python `s.split("=")[1]`: the piece between the first and second `=`. -/
def pySplitEqSecond (s : String) : List Char :=
  ((s.data.dropWhile (fun c => c != '=')).drop 1).takeWhile (fun c => c != '=')

/-- The string is nonempty and its last character is neither `','` nor
`' '` (so `strip(', ')` does not eat into it). -/
def cleanTail (s : String) : Bool :=
  match s.data.reverse with
  | [] => false
  | c :: _ => !(stripChar c)

/-- No comma anywhere in the string. -/
def commaFree (s : String) : Bool := s.data.all (fun c => c != ',')

/-- The last string of the list exists and has a clean tail. -/
def lastClean (vs : List String) : Bool :=
  match vs.getLast? with
  | some w => cleanTail w
  | none => false

/-- Concatenation of a list of strings (Python `+=` accumulation). -/
def catStrs : List String → String
| [] => ""
| s :: rest => s ++ catStrs rest

/-- Comma-separated join, the spec's "comma-joined list". -/
def joinComma : List String → String
| [] => ""
| [v] => v
| v :: w :: rest => v ++ "," ++ joinComma (w :: rest)

/-- `key=` followed by one `value,` per entry, exactly as the
`subcmd += "%s," % value` loops build it. -/
def pyListStr (key : String) (vals : List String) : String :=
  key ++ catStrs (vals.map (fun v => v ++ ","))

/-- A loaded raster layer as `Nviz_cmd_command` reads it: map name, the
`data['nviz']['surface']['draw']` dictionary, and the optional color
attribute (`none` models `'color' not in attribute`; the `Bool` is the
truthiness of its `'map'` flag). -/
structure RasterItem where
  name : String
  draw : DrawData
  colorAttr : Option (Bool × String)
deriving DecidableEq, Repr

/-- A constant surface as the serializer reads it. -/
structure ConstantItem where
  value : Int
  resolution : Int
  color : String
deriving DecidableEq, Repr

/-- `cmdMode` values: raster draw-mode descriptions, then `"fine"` per
constant (line 1345). -/
def valsMode (rs : List RasterItem) (cs : List ConstantItem) : List String :=
  rs.map (fun r => r.draw.mode.descMode) ++ cs.map (fun _ => "fine")

/-- `cmdFine` values (lines 1339, 1346). -/
def valsFine (rs : List RasterItem) (cs : List ConstantItem) : List String :=
  rs.map (fun r => toString r.draw.res.fine) ++ cs.map (fun c => toString c.resolution)

/-- `cmdCoarse` values (lines 1340, 1347). -/
def valsCoarse (rs : List RasterItem) (cs : List ConstantItem) : List String :=
  rs.map (fun r => toString r.draw.res.coarse) ++ cs.map (fun c => toString c.resolution)

/-- `cmdShading` values: shading descriptions, then `"gouraud"` (line 1348). -/
def valsShading (rs : List RasterItem) (cs : List ConstantItem) : List String :=
  rs.map (fun r => r.draw.mode.descShading) ++ cs.map (fun _ => "gouraud")

/-- `cmdStyle` values: style descriptions, then `"surface"` (line 1349). -/
def valsStyle (rs : List RasterItem) (cs : List ConstantItem) : List String :=
  rs.map (fun r => r.draw.mode.descStyle) ++ cs.map (fun _ => "surface")

/-- `cmdWire` values: wire colors, then black `"0:0:0"` (line 1350). -/
def valsWire (rs : List RasterItem) (cs : List ConstantItem) : List String :=
  rs.map (fun r => r.draw.wire.value) ++ cs.map (fun _ => "0:0:0")

/-- The draw-mode portion of `Nviz_cmd_command` (nviz_mapdisp.py:1318-1372):
the `-a` flag test compares the whole `draw` dictionary of every raster
against the first; with the flag, only the first value of each sub-command
is kept (`subcmd.split(',')[0] + ' '`) and only the "meaningful" tokens are
emitted; without it, each of the six sub-commands is
`strip(', ')`-ed and emitted whole. -/
def drawSegment (rasters : List RasterItem) (cs : List ConstantItem) : String :=
  match rasters with
  | [] => ""
  | r0 :: rs =>
    let flagA := (r0 :: rs).all (fun r => decide (r.draw = r0.draw))
    let cm := pyListStr "mode=" (valsMode (r0 :: rs) cs)
    let cf := pyListStr "resolution_fine=" (valsFine (r0 :: rs) cs)
    let cc := pyListStr "resolution_coarse=" (valsCoarse (r0 :: rs) cs)
    let csh := pyListStr "shading=" (valsShading (r0 :: rs) cs)
    let cst := pyListStr "style=" (valsStyle (r0 :: rs) cs)
    let cw := pyListStr "wire_color=" (valsWire (r0 :: rs) cs)
    if flagA then
      let t0 := firstField cm ++ " "
      let t1 := firstField cf ++ " "
      let t2 := firstField cc ++ " "
      let t3 := firstField csh ++ " "
      let t4 := firstField cst ++ " "
      let t5 := firstField cw ++ " "
      "-a " ++
        (t0 ++
         (if pyIn "fine" t0 then t1
          else if pyIn "coarse" t0 then t2
          else if pyIn "both" t0 then t2 ++ t1
          else "") ++
         (if pyIn "flat" t3 then t3 else "") ++
         (if pyIn "wire" t4 then t4 else "") ++
         (if pyIn "coarse" t0 || (pyIn "both" t0 && pyIn "wire" t3) then t5
          else ""))
    else
      pyStrip cm ++ " " ++ pyStrip cf ++ " " ++ pyStrip cc ++ " " ++
        pyStrip csh ++ " " ++ pyStrip cst ++ " " ++ pyStrip cw ++ " "

/-- Spec-side form of the compact (`-a`) output: one single
(first-raster) value per emitted sub-attribute, under the source's
emission conditions. -/
def compactDraw (r0 : RasterItem) : String :=
  let t0 := "mode=" ++ r0.draw.mode.descMode ++ " "
  let t1 := "resolution_fine=" ++ toString r0.draw.res.fine ++ " "
  let t2 := "resolution_coarse=" ++ toString r0.draw.res.coarse ++ " "
  let t3 := "shading=" ++ r0.draw.mode.descShading ++ " "
  let t4 := "style=" ++ r0.draw.mode.descStyle ++ " "
  let t5 := "wire_color=" ++ r0.draw.wire.value ++ " "
  t0 ++
    (if pyIn "fine" t0 then t1
     else if pyIn "coarse" t0 then t2
     else if pyIn "both" t0 then t2 ++ t1
     else "") ++
    (if pyIn "flat" t3 then t3 else "") ++
    (if pyIn "wire" t4 then t4 else "") ++
    (if pyIn "coarse" t0 || (pyIn "both" t0 && pyIn "wire" t3) then t5
     else "")

/-- Spec-side form of the full output: no `-a` flag, one comma-joined list
per sub-attribute (mode, fine resolution, coarse resolution, shading,
style, wire color) covering every raster in insertion order with the
constants' fixed defaults appended. -/
def fullDraw (rasters : List RasterItem) (cs : List ConstantItem) : String :=
  ("mode=" ++ joinComma (valsMode rasters cs)) ++ " " ++
    ("resolution_fine=" ++ joinComma (valsFine rasters cs)) ++ " " ++
    ("resolution_coarse=" ++ joinComma (valsCoarse rasters cs)) ++ " " ++
    ("shading=" ++ joinComma (valsShading rasters cs)) ++ " " ++
    ("style=" ++ joinComma (valsStyle rasters cs)) ++ " " ++
    ("wire_color=" ++ joinComma (valsWire rasters cs)) ++ " "

/-- All six head (first-raster) values are comma-free, so that
`split(',')[0]` keeps them whole. -/
def headsCommaFree (r0 : RasterItem) : Bool :=
  commaFree r0.draw.mode.descMode && commaFree (toString r0.draw.res.fine) &&
  commaFree (toString r0.draw.res.coarse) && commaFree r0.draw.mode.descShading &&
  commaFree r0.draw.mode.descStyle && commaFree r0.draw.wire.value

/-- All six value lists end in a string with a clean tail, so that
`strip(', ')` removes exactly the one trailing comma. -/
def lastsOk (rasters : List RasterItem) (cs : List ConstantItem) : Bool :=
  lastClean (valsMode rasters cs) && lastClean (valsFine rasters cs) &&
  lastClean (valsCoarse rasters cs) && lastClean (valsShading rasters cs) &&
  lastClean (valsStyle rasters cs) && lastClean (valsWire rasters cs)

/-- `elevation_value=` segment (lines 1306-1311). -/
def elevationValueSeg (cs : List ConstantItem) : String :=
  if cs.isEmpty then ""
  else pyStrip (pyListStr "elevation_value=" (cs.map (fun c => toString c.value))) ++ " "

/-- `elevation_map=` segment (lines 1312-1317). -/
def elevationMapSeg (rasters : List RasterItem) : String :=
  pyStrip (pyListStr "elevation_map=" (rasters.map (fun r => r.name))) ++ " "

/-- One raster's contribution to `cmdColorMap` (lines 1378-1384). -/
def colorMapEntry (r : RasterItem) : String :=
  match r.colorAttr with
  | none => r.name ++ ","
  | some (true, v) => v ++ ","
  | some (false, _) => ""

/-- One raster's contribution to `cmdColorVal` (line 1386). -/
def colorValEntry (r : RasterItem) : String :=
  match r.colorAttr with
  | some (false, v) => v ++ ","
  | _ => ""

/-- The color attribute segment (lines 1376-1394): literal colors and
mapped colors in separate clauses, each omitted when its value part
(`split("=")[1]`) is empty. -/
def attrSeg (rasters : List RasterItem) (cs : List ConstantItem) : String :=
  let cmdColorMap := "color_map=" ++ catStrs (rasters.map colorMapEntry)
  let cmdColorVal := "color=" ++ catStrs (rasters.map colorValEntry) ++
    catStrs (cs.map (fun c => c.color ++ ","))
  (if (pySplitEqSecond cmdColorMap).isEmpty then ""
   else pyStrip cmdColorMap ++ " ") ++
  (if (pySplitEqSecond cmdColorVal).isEmpty then ""
   else pyStrip cmdColorVal ++ " ")

/-- `Nviz_cmd_command` (nviz_mapdisp.py:1292-1437).  With no raster and no
constant it fails (the source signals this by returning the error message
instead of a command; modelled as `Except.error`, nothing partial is
returned).  `tailSeg` stands for the viewpoint, background, light, fringe
and output segments, which are built from GUI state outside the layer
registry (lines 1396-1435) and appended verbatim. -/
def nvizCmdCommand (rasters : List RasterItem) (cs : List ConstantItem)
    (tailSeg : String) : Except String String :=
  if rasters.isEmpty && cs.isEmpty then
    Except.error "At least one raster map required"
  else
    Except.ok ("nviz_cmd " ++ elevationValueSeg cs ++
      (if rasters.isEmpty then ""
       else elevationMapSeg rasters ++ drawSegment rasters cs ++
         attrSeg rasters cs) ++ tailSeg)

/-! ## String lemmas for the serializer -/

theorem takeWhile_comma (xs ys : List Char)
    (h : ∀ c ∈ xs, (c != ',') = true) :
    (xs ++ ',' :: ys).takeWhile (fun c => c != ',') = xs := by
  induction xs with
  | nil => simp [List.takeWhile_cons]
  | cons a as ih =>
    simp only [List.cons_append, List.takeWhile_cons,
      h a (List.mem_cons_self a as)]
    simp [ih (fun c hc => h c (List.mem_cons_of_mem a hc))]

theorem dropWhile_append_all (p : Char → Bool) (xs ys : List Char)
    (h : ∀ c ∈ xs, p c = true) :
    (xs ++ ys).dropWhile p = ys.dropWhile p := by
  induction xs with
  | nil => simp
  | cons a as ih =>
    simp [List.dropWhile_cons, h a (List.mem_cons_self a as),
      ih (fun c hc => h c (List.mem_cons_of_mem a hc))]

theorem pyStripL_clean (a b : Char) (g tl : List Char)
    (ha : stripChar a = false) (hb : stripChar b = false)
    (htl : ∀ c ∈ tl, stripChar c = true) :
    pyStripL (a :: (g ++ b :: tl)) = a :: (g ++ [b]) := by
  have h1 : (a :: (g ++ b :: tl)).dropWhile stripChar = a :: (g ++ b :: tl) := by
    simp [List.dropWhile_cons, ha]
  have h2 : (a :: (g ++ b :: tl)).reverse =
      tl.reverse ++ (b :: (g.reverse ++ [a])) := by
    simp [List.reverse_cons, List.reverse_append]
  have h3 : (tl.reverse ++ (b :: (g.reverse ++ [a]))).dropWhile stripChar =
      b :: (g.reverse ++ [a]) := by
    rw [dropWhile_append_all stripChar _ _
      (fun c hc => htl c (List.mem_reverse.mp hc))]
    simp [List.dropWhile_cons, hb]
  unfold pyStripL
  rw [h1, h2, h3]
  simp

theorem catStrs_map_comma (init : List String) (w : String) :
    catStrs ((init ++ [w]).map (fun v => v ++ ",")) =
      joinComma (init ++ [w]) ++ "," := by
  induction init with
  | nil => simp [catStrs, joinComma]
  | cons v init' ih =>
    cases init' with
    | nil => simp [catStrs, joinComma, String.append_assoc]
    | cons u rest =>
      simp only [List.cons_append, List.map_cons, catStrs] at ih ⊢
      rw [ih]
      simp only [joinComma, String.append_assoc]

theorem joinComma_concat_data (init : List String) (w : String) :
    ∃ M : List Char, (joinComma (init ++ [w])).data = M ++ w.data := by
  induction init with
  | nil => exact ⟨[], by simp [joinComma]⟩
  | cons v init' ih =>
    obtain ⟨M, hM⟩ := ih
    cases init' with
    | nil =>
      refine ⟨v.data ++ [','], ?_⟩
      simp [joinComma, String.data_append,
        (show ("," : String).data = [','] from rfl)]
    | cons u rest =>
      refine ⟨v.data ++ [','] ++ M, ?_⟩
      simp only [List.cons_append] at hM ⊢
      simp [joinComma, String.data_append, hM, List.append_assoc,
        (show ("," : String).data = [','] from rfl)]

theorem exists_concat_of_lastClean (vs : List String)
    (h : lastClean vs = true) :
    ∃ init w, vs = init ++ [w] ∧ cleanTail w = true := by
  induction vs using List.reverseRecOn with
  | nil => simp [lastClean] at h
  | append_singleton init w ih =>
    refine ⟨init, w, rfl, ?_⟩
    simpa [lastClean, List.getLast?_concat] using h

theorem pyStrip_pyListStr (k : String) (init : List String) (w : String)
    (a : Char) (ktl : List Char) (hk : k.data = a :: ktl)
    (ha : stripChar a = false) (hw : cleanTail w = true) :
    pyStrip (pyListStr k (init ++ [w])) = k ++ joinComma (init ++ [w]) := by
  rcases hrev : w.data.reverse with _ | ⟨b, wrev⟩
  · simp [cleanTail, hrev] at hw
  · have hb : stripChar b = false := by
      have := hw
      rw [cleanTail, hrev] at this
      simpa using this
    have hwdata : w.data = wrev.reverse ++ [b] := by
      have h0 := congrArg List.reverse hrev
      simpa using h0
    obtain ⟨M, hM⟩ := joinComma_concat_data init w
    apply String.ext
    show pyStripL (pyListStr k (init ++ [w])).data =
      (k ++ joinComma (init ++ [w])).data
    have hdata : (pyListStr k (init ++ [w])).data =
        a :: ((ktl ++ M ++ wrev.reverse) ++ b :: [',']) := by
      rw [pyListStr, String.data_append, hk, catStrs_map_comma,
        String.data_append, hM, hwdata,
        (show ("," : String).data = [','] from rfl)]
      simp [List.append_assoc]
    rw [hdata,
      pyStripL_clean a b (ktl ++ M ++ wrev.reverse) [','] ha hb
        (by intro c hc; simp at hc; subst hc; rfl)]
    rw [String.data_append, hk, hM, hwdata]
    simp [List.append_assoc]

theorem firstField_pyListStr (k v : String) (vs : List String)
    (hk : commaFree k = true) (hv : commaFree v = true) :
    firstField (pyListStr k (v :: vs)) = k ++ v := by
  apply String.ext
  show (pyListStr k (v :: vs)).data.takeWhile (fun c => c != ',') =
    (k ++ v).data
  have hdata : (pyListStr k (v :: vs)).data =
      (k.data ++ v.data) ++ ',' :: (catStrs (vs.map (fun u => u ++ ","))).data := by
    simp [pyListStr, catStrs, String.data_append, List.append_assoc,
      (show ("," : String).data = [','] from rfl)]
  rw [hdata, takeWhile_comma, String.data_append]
  intro c hc
  rcases List.mem_append.mp hc with hc | hc
  · exact (List.all_eq_true.mp hk) c hc
  · exact (List.all_eq_true.mp hv) c hc

/-! ## C3 -/

/-- C3: in the draw-mode portion of `Nviz_cmd_command`, if the `draw`
dictionaries of all loaded raster layers are identical the output is the
compact `-a` form built from single first-layer values; if any two differ,
the `-a` flag is omitted and one comma-joined list per sub-attribute (mode,
fine resolution, coarse resolution, shading, style, wire color) is emitted
covering every raster layer in insertion order, with the constants' fixed
defaults (`fine`, `gouraud`, `surface`, black `0:0:0` wire) appended. -/
theorem c3_draw_mode_serialization (r0 : RasterItem) (rs : List RasterItem)
    (cs : List ConstantItem) (hheads : headsCommaFree r0 = true)
    (hlasts : lastsOk (r0 :: rs) cs = true) :
    ((r0 :: rs).all (fun r => decide (r.draw = r0.draw)) = true →
      drawSegment (r0 :: rs) cs = "-a " ++ compactDraw r0) ∧
    ((r0 :: rs).all (fun r => decide (r.draw = r0.draw)) = false →
      drawSegment (r0 :: rs) cs = fullDraw (r0 :: rs) cs) := by
  simp only [headsCommaFree, Bool.and_eq_true] at hheads
  obtain ⟨⟨⟨⟨⟨hh1, hh2⟩, hh3⟩, hh4⟩, hh5⟩, hh6⟩ := hheads
  simp only [lastsOk, Bool.and_eq_true] at hlasts
  obtain ⟨⟨⟨⟨⟨hl1, hl2⟩, hl3⟩, hl4⟩, hl5⟩, hl6⟩ := hlasts
  constructor
  · intro hall
    have e1 : valsMode (r0 :: rs) cs = r0.draw.mode.descMode ::
        (rs.map (fun r => r.draw.mode.descMode) ++ cs.map (fun _ => "fine")) := by
      simp [valsMode]
    have e2 : valsFine (r0 :: rs) cs = toString r0.draw.res.fine ::
        (rs.map (fun r => toString r.draw.res.fine) ++
          cs.map (fun c => toString c.resolution)) := by
      simp [valsFine]
    have e3 : valsCoarse (r0 :: rs) cs = toString r0.draw.res.coarse ::
        (rs.map (fun r => toString r.draw.res.coarse) ++
          cs.map (fun c => toString c.resolution)) := by
      simp [valsCoarse]
    have e4 : valsShading (r0 :: rs) cs = r0.draw.mode.descShading ::
        (rs.map (fun r => r.draw.mode.descShading) ++
          cs.map (fun _ => "gouraud")) := by
      simp [valsShading]
    have e5 : valsStyle (r0 :: rs) cs = r0.draw.mode.descStyle ::
        (rs.map (fun r => r.draw.mode.descStyle) ++
          cs.map (fun _ => "surface")) := by
      simp [valsStyle]
    have e6 : valsWire (r0 :: rs) cs = r0.draw.wire.value ::
        (rs.map (fun r => r.draw.wire.value) ++ cs.map (fun _ => "0:0:0")) := by
      simp [valsWire]
    simp only [drawSegment, hall, if_true]
    rw [e1, e2, e3, e4, e5, e6,
      firstField_pyListStr _ _ _ (by decide) hh1,
      firstField_pyListStr _ _ _ (by decide) hh2,
      firstField_pyListStr _ _ _ (by decide) hh3,
      firstField_pyListStr _ _ _ (by decide) hh4,
      firstField_pyListStr _ _ _ (by decide) hh5,
      firstField_pyListStr _ _ _ (by decide) hh6]
    rfl
  · intro hall
    obtain ⟨i1, w1, hv1, hc1⟩ := exists_concat_of_lastClean _ hl1
    obtain ⟨i2, w2, hv2, hc2⟩ := exists_concat_of_lastClean _ hl2
    obtain ⟨i3, w3, hv3, hc3⟩ := exists_concat_of_lastClean _ hl3
    obtain ⟨i4, w4, hv4, hc4⟩ := exists_concat_of_lastClean _ hl4
    obtain ⟨i5, w5, hv5, hc5⟩ := exists_concat_of_lastClean _ hl5
    obtain ⟨i6, w6, hv6, hc6⟩ := exists_concat_of_lastClean _ hl6
    simp only [drawSegment, hall, Bool.false_eq_true, if_false, fullDraw]
    rw [hv1, hv2, hv3, hv4, hv5, hv6,
      pyStrip_pyListStr "mode=" i1 w1 'm' ("ode=" : String).data rfl rfl hc1,
      pyStrip_pyListStr "resolution_fine=" i2 w2 'r'
        ("esolution_fine=" : String).data rfl rfl hc2,
      pyStrip_pyListStr "resolution_coarse=" i3 w3 'r'
        ("esolution_coarse=" : String).data rfl rfl hc3,
      pyStrip_pyListStr "shading=" i4 w4 's' ("hading=" : String).data rfl rfl hc4,
      pyStrip_pyListStr "style=" i5 w5 's' ("tyle=" : String).data rfl rfl hc5,
      pyStrip_pyListStr "wire_color=" i6 w6 'w'
        ("ire_color=" : String).data rfl rfl hc6]

/-- Raster with coarse draw mode. -/
def rC3 : RasterItem :=
  { name := "elev",
    draw := { res := ⟨false, 9, 6⟩,
              mode := ⟨false, 1, "coarse", "surface", "gouraud"⟩,
              wire := ⟨false, "0:0:0"⟩, all := false },
    colorAttr := some (true, "elevcolors") }

/-- Raster with a differing draw dictionary. -/
def rC3b : RasterItem :=
  { name := "slope",
    draw := { res := ⟨false, 9, 3⟩,
              mode := ⟨false, 1, "fine", "wire", "flat"⟩,
              wire := ⟨false, "136:136:136"⟩, all := false },
    colorAttr := some (false, "green") }

theorem c3_draw_mode_serialization_witness :
    drawSegment [rC3, rC3] [] = "-a " ++ compactDraw rC3 ∧
    drawSegment [rC3, rC3b] [] = fullDraw [rC3, rC3b] [] :=
  ⟨(c3_draw_mode_serialization rC3 [rC3] [] (by decide) (by decide)).1
    (by decide),
   (c3_draw_mode_serialization rC3 [rC3b] [] (by decide) (by decide)).2
    (by decide)⟩

/-! ## C4 -/

/-- C4: with zero loaded raster layers and zero constant surfaces,
`Nviz_cmd_command` fails with the insufficient-data error and no partial
command string is returned. -/
theorem c4_insufficient_data (tailSeg : String) :
    nvizCmdCommand [] [] tailSeg =
      Except.error "At least one raster map required" := rfl

end GrassNviz

